import Mathlib

/-!
Verification of the `opensearch` management command of django-opensearch-dsl
(`django_opensearch_dsl/management/commands/opensearch.py`).

The command's control flow is embedded shallowly.  Collaborator behaviour
(registry contents, search-engine index existence, store-level `FieldError`
decisions, per-document engine outcomes, interactive input) is supplied
through an explicit environment `Env`, so the embedded command is a pure,
executable function `manageDocument : Env → DocOptions → RunResult` whose
observable output records the exit status, the error messages written to
stderr, the keyword arguments built for each target and every document
update call that was performed.
-/

/-- Scalar values produced by CLI value coercion.
Modelled from the spec: the scalar cases of `types.parse`
(`django_opensearch_dsl/management/types.py` is not under src/).  Floats are
kept symbolically as their integer-part and fraction-part digit strings;
their numeric semantics is not needed by any claim. -/
inductive ScalarValue where
  | null : ScalarValue
  | intV : Int → ScalarValue
  | floatV : String → String → ScalarValue
  | dateV : Nat → Nat → Nat → ScalarValue
  | strV : String → ScalarValue
deriving DecidableEq

/-- A coerced CLI filter value: a scalar, or a comma-separated list of
scalars (comma-split segments can never themselves contain a comma). -/
inductive FilterValue where
  | scalar : ScalarValue → FilterValue
  | listV : List ScalarValue → FilterValue
deriving DecidableEq

/-- Python's `str.lower()` as used by the command (`model.lower()`,
`m.__name__.lower()`, `p.lower()`): ASCII case folding, character by
character. -/
def pyLower (s : String) : String := String.mk (s.data.map Char.toLower)

/-- Python's `str.split(sep)` for a one-character separator, on the
character-list model of strings: splits at every occurrence of `sep`
(`"".split(sep) = [""]`, `"a=b=c".split("=") = ["a","b","c"]`). -/
def pySplit (sep : Char) : List Char → List (List Char)
  | [] => [[]]
  | c :: cs =>
    if c = sep then [] :: pySplit sep cs
    else
      match pySplit sep cs with
      | [] => [[c]]
      | h :: t => (c :: h) :: t

/-- Digit string to natural number. -/
def digitsToNat (cs : List Char) : Nat :=
  cs.foldl (fun n c => 10 * n + (c.toNat - '0'.toNat)) 0

/-- Recognises an integer literal: optional leading minus, then digits. -/
def isIntLit (cs : List Char) : Bool :=
  match cs with
  | '-' :: rest => !rest.isEmpty && rest.all Char.isDigit
  | _ => !cs.isEmpty && cs.all Char.isDigit

/-- Value of an integer literal. -/
def intLitVal (cs : List Char) : Int :=
  match cs with
  | '-' :: rest => -(digitsToNat rest : Int)
  | _ => (digitsToNat cs : Int)

/-- Recognises a dotted float literal `int.digits`. -/
def isFloatLit (cs : List Char) : Bool :=
  match pySplit '.' cs with
  | [a, b] => isIntLit a && !b.isEmpty && b.all Char.isDigit
  | _ => false

/-- Recognises an ISO date literal `YYYY-MM-DD` (structurally). -/
def isDateLit (cs : List Char) : Bool :=
  match cs with
  | [y1, y2, y3, y4, '-', m1, m2, '-', d1, d2] =>
    [y1, y2, y3, y4, m1, m2, d1, d2].all Char.isDigit
  | _ => false

/-- Modelled from the spec: scalar coercion chain of `types.parse`
(`django_opensearch_dsl/management/types.py` is not under src/).
Priority per the spec and the command's own `--filters` help text:
empty string → null, dotted float literal, integer literal, ISO date,
else literal string.  The dotted-float form is required before the int
attempt so that pure digit strings coerce to int, as the command's help
documents (`'[lookup]=23'` is an int, `'[lookup]=1.12'` a float). -/
def parseScalar (cs : List Char) : ScalarValue :=
  if cs = [] then .null
  else if isFloatLit cs then
    match pySplit '.' cs with
    | [a, b] => .floatV (String.mk a) (String.mk b)
    | _ => .strV (String.mk cs)
  else if isIntLit cs then .intV (intLitVal cs)
  else if isDateLit cs then
    match cs with
    | [y1, y2, y3, y4, _, m1, m2, _, d1, d2] =>
      .dateV (digitsToNat [y1, y2, y3, y4]) (digitsToNat [m1, m2])
        (digitsToNat [d1, d2])
    | _ => .strV (String.mk cs)
  else .strV (String.mk cs)

/-- Modelled from the spec: `types.parse`
(`django_opensearch_dsl/management/types.py` is not under src/).  A scalar
is coerced by the scalar chain; otherwise, when the string contains a
comma, each comma-separated segment is coerced and an ordered list is
produced.  The function is total: the final fallback is a literal string,
so coercion itself never fails. -/
def parse (cs : List Char) : FilterValue :=
  if cs = [] ∨ isFloatLit cs ∨ isIntLit cs ∨ isDateLit cs then
    .scalar (parseScalar cs)
  else if ',' ∈ cs then .listV ((pySplit ',' cs).map parseScalar)
  else .scalar (parseScalar cs)

/-- The filter-argument parser built by `Command.db_filter`
(opensearch.py lines 32-48): `lookup, v = value.split("=")` followed by
`v = parse(v)`.  The two-name unpacking succeeds exactly when the split
yields exactly two pieces; any `ValueError` (i.e. any other number of
pieces, since `parse` is total) prints the usage and the malformed-filter
message and exits with code 1, modelled as `none`. -/
def dbFilter (value : List Char) : Option (List Char × FilterValue) :=
  match pySplit '=' value with
  | [lookup, v] => some (lookup, parse v)
  | _ => none

/-- A Django `Q` object as built by the command: an atomic
`Q(**{lookup: value})` or a conjunction `q1 & q2` (opensearch.py lines
91-92 and 160-161). -/
inductive DjangoQ where
  | atom : String → FilterValue → DjangoQ
  | qand : DjangoQ → DjangoQ → DjangoQ
deriving DecidableEq

/-- Semantics of a `Q` object over an abstract store record, given as the
record's satisfaction function for atomic lookups. -/
def qMatches (sat : String → FilterValue → Bool) : DjangoQ → Bool
  | .atom k v => sat k v
  | .qand a b => qMatches sat a && qMatches sat b

/-- Whether a record is selected by an optional predicate (`None` means no
filtering, i.e. every record is selected). -/
def selects (sat : String → FilterValue → Bool) : Option DjangoQ → Bool
  | none => true
  | some q => qMatches sat q

/-- `functools.reduce(operator.and_, (Q(**{k: v}) for k, v in filters)) if
filters else None` (opensearch.py lines 91-92): a left fold of `&` over
the atomic predicates, `None` when no filter was given. -/
def buildFilter (pairs : List (String × FilterValue)) : Option DjangoQ :=
  match pairs with
  | [] => none
  | p :: rest =>
    some (rest.foldl (fun acc kv => .qand acc (.atom kv.1 kv.2))
      (.atom p.1 p.2))

/-- Modelled from the spec: the `OpensearchAction` enum
(`django_opensearch_dsl/management/enums.py` is not under src/): the closed
set of operations, each with a past-tense label for reports. -/
inductive OpensearchAction where
  | index | create | delete | update | rebuild
deriving DecidableEq

/-- Past-tense label of an action, used in the report strings. -/
def OpensearchAction.pastLabel : OpensearchAction → String
  | .index => "indexed"
  | .create => "created"
  | .delete => "deleted"
  | .update => "updated"
  | .rebuild => "rebuilt"

/-- A registered document class (`os_model`): its Django model name
(`os_model.django.model.__name__`) and its index name
(`os_model.Index.name`). -/
structure OSModelSpec where
  djangoModel : String
  indexName : String
deriving DecidableEq

/-- A registered index as seen through the registry and the search-engine
client: its name (`index._name`), whether `index.exists()`, the document
ids returned by the id-only scan
(`[h.meta.id for h in index.search().extra(stored_fields=[]).scan()]`),
and its first document class (`index._doc_types[0]`). -/
structure IndexSpec where
  name : String
  existsFlag : Bool
  storedIds : List String
  docType0 : OSModelSpec
deriving DecidableEq

/-- The environment of one command invocation: registry contents and the
behaviour of the external collaborators (store and search engine).
`fieldError model filter exclude` tells whether
`get_queryset(filter_=filter, exclude=exclude, count=...).count()` raises
`FieldError` for that model; `docOutcomes i` gives, for the i-th processed
target, the engine's per-document outcome list (`none` = accepted,
`some reason` = rejected with that reason); `confirmInputs` is the
sequence of interactive answers available on stdin. -/
structure Env where
  knownIndices : List IndexSpec
  registryModels : List String
  indicesRaw : List (String × List OSModelSpec)
  fieldError : String → Option DjangoQ → Option DjangoQ → Bool
  docOutcomes : Nat → List (Option String)
  confirmInputs : List String

/-- The options of one `document` subcommand invocation (already parsed:
`filters`/`excludes` hold the (lookup, coerced value) pairs produced by
`db_filter`).  Empty `indices`/`objects` lists model absent options
(Python's falsy `None`/`[]`). -/
structure DocOptions where
  action : OpensearchAction
  indices : List String
  objects : List String
  force : Bool
  filters : List (String × FilterValue)
  excludes : List (String × FilterValue)
  verbosity : Nat
  parallel : Bool
  count : Option Int
  refresh : Bool
  missing : Bool
  database : Option String
  batchSize : Option Int
  batchType : String

/-- A message written to stderr before `exit(1)`, kept structured. -/
inductive ErrMsg where
  | unknownObject : String → List String → ErrMsg
  | unknownIndices : List String → List String → ErrMsg
  | notCreated : List String → ErrMsg
  | fieldErrorObjects : String → ErrMsg
  | fieldErrorIndex : String → String → ErrMsg
deriving DecidableEq

/-- The keyword-argument dictionary appended to `kwargs_list` for one
target and later splatted into `get_indexing_queryset`.  `dbAlias = none`
models a dict without the `db_alias` key (the objects branch, line 148);
`dbAlias = some d` models `{"db_alias": d, ...}` (the index branch,
line 165). -/
structure Kwargs where
  dbAlias : Option (Option String)
  filter_ : Option DjangoQ
  exclude : Option DjangoQ
  count : Option Int
deriving DecidableEq

/-- One per-document failure descriptor: the action attempted and the
engine-reported reason. -/
structure ErrDescr where
  action : OpensearchAction
  reason : String
deriving DecidableEq

/-- One `document.update(...)` call performed during execution, with the
aggregate it returned. -/
structure UpdateCall where
  targetModel : String
  kwargs : Kwargs
  success : Nat
  errors : List ErrDescr
deriving DecidableEq

/-- Outcome of the confirmation loop over the available inputs. -/
inductive ConfirmOutcome where
  | proceed | abort | pending
deriving DecidableEq

/-- The observable result of one run: whether the command called
`exit(1)`, whether it is still blocked on the confirmation prompt, the
structured stderr messages, the kwargs built per target, and the document
update calls performed. -/
structure RunResult where
  exit1 : Bool
  awaitingInput : Bool
  errorsReported : List ErrMsg
  kwargsList : List Kwargs
  updates : List UpdateCall
deriving DecidableEq

/-- Object-name validation (opensearch.py lines 95-103): each given name
must case-insensitively match a registered model name; the first unknown
name aborts with `exit(1)` after naming the valid choices.  Returns
`valid_models`, the given names in their original casing. -/
def validateObjects (registeredLower : List String) :
    List String → Except ErrMsg (List String)
  | [] => .ok []
  | m :: rest =>
    if pyLower m ∈ registeredLower then
      (validateObjects registeredLower rest).map (m :: ·)
    else .error (.unknownObject m registeredLower)

/-- Index-name resolution (opensearch.py lines 105-117): with names given,
every unknown name aborts; otherwise the registry's indices are narrowed
to the given names.  Without names, all registered indices are kept. -/
def resolveIndices (known : List IndexSpec) (indexNames : List String) :
    Except ErrMsg (List IndexSpec) :=
  if indexNames = [] then .ok known
  else
    let knownNames := known.map (·.name)
    let unknown := indexNames.filter (fun n => n ∉ knownNames)
    if unknown = [] then .ok (known.filter (fun i => i.name ∈ indexNames))
    else .error (.unknownIndices unknown knownNames)

/-- The resolved index set as a total function (the value `resolveIndices`
returns whenever it does not abort). -/
def resolvedIndexSet (env : Env) (opt : DocOptions) : List IndexSpec :=
  if opt.indices = [] then env.knownIndices
  else env.knownIndices.filter (fun i => i.name ∈ opt.indices)

/-- The `--missing` augmentation of the exclude predicate in the index
branch (opensearch.py lines 157-161): when the flag is set and the action
is `index`, a `Q(pk__in=[stored ids])` atom is AND-conjoined onto the
user excludes (or used alone when there are none). -/
def missingExclude (exclude : Option DjangoQ) (idx : IndexSpec)
    (applyMissing : Bool) : Option DjangoQ :=
  if applyMissing then
    let q : DjangoQ := .atom "pk__in" (.listV (idx.storedIds.map .strV))
    match exclude with
    | some e => some (.qand e q)
    | none => some q
  else exclude

/-- Target selection of the objects branch (opensearch.py lines 130-142):
registered models whose lowercased name occurs in `valid_models`, then
every registered document class whose model is among those and whose
index is among the resolved indices.  Note that `valid_models` holds the
user-supplied names in their original casing (line 100), while the
comparison at line 131 lowercases the registered names. -/
def selectedOsModels (registryModels : List String)
    (indicesRaw : List (String × List OSModelSpec))
    (validModels : List String) (indices : List IndexSpec) :
    List OSModelSpec :=
  let djangoModels := registryModels.filter (fun m => pyLower m ∈ validModels)
  let allOsModels := (indicesRaw.map Prod.snd).flatten
  allOsModels.filter (fun osm =>
    decide (osm.djangoModel ∈ djangoModels) &&
    decide (osm.indexName ∈ indices.map (·.name)))

/-- Kwargs construction and queryset validation of the objects branch
(opensearch.py lines 144-154): `exclude_ = exclude` (the `--missing`
comment at line 144 is not followed by any missing handling in this
branch); for each selected document class, the kwargs dict (without
`db_alias`) is appended, then the counting queryset is built — the first
`FieldError` writes the message naming the model and exits. -/
def buildKwargsObjects
    (fieldError : String → Option DjangoQ → Option DjangoQ → Bool)
    (filter_ exclude : Option DjangoQ) (count : Option Int) :
    List OSModelSpec → Except ErrMsg (List (OSModelSpec × Kwargs))
  | [] => .ok []
  | m :: rest =>
    if fieldError m.djangoModel filter_ exclude then
      .error (.fieldErrorObjects m.djangoModel)
    else
      (buildKwargsObjects fieldError filter_ exclude count rest).map
        ((m, ⟨none, filter_, exclude, count⟩) :: ·)

/-- Kwargs construction and queryset validation of the index branch
(opensearch.py lines 156-172): per index, the `--missing` exclude is
applied, the kwargs dict (with `db_alias`) is appended, and the counting
queryset of `index._doc_types[0]` is built — the first `FieldError`
writes the message naming the model and the index and exits. -/
def buildKwargsIndices
    (fieldError : String → Option DjangoQ → Option DjangoQ → Bool)
    (filter_ exclude : Option DjangoQ) (count : Option Int)
    (database : Option String) (applyMissing : Bool) :
    List IndexSpec → Except ErrMsg (List (OSModelSpec × Kwargs))
  | [] => .ok []
  | idx :: rest =>
    let excl := missingExclude exclude idx applyMissing
    if fieldError idx.docType0.djangoModel filter_ excl then
      .error (.fieldErrorIndex idx.docType0.djangoModel idx.name)
    else
      (buildKwargsIndices fieldError filter_ exclude count database
          applyMissing rest).map
        ((idx.docType0, ⟨some database, filter_, excl, count⟩) :: ·)

/-- The stage of `Command._manage_document` after index resolution
(opensearch.py lines 119-172): abort with the list of not-created index
names when any resolved index is not created, otherwise build the
per-target kwargs of the branch selected by `--objects` while validating
every counting queryset. -/
def docValidatePost (env : Env) (opt : DocOptions)
    (validModels : List String) (indices : List IndexSpec) :
    Except ErrMsg (List (OSModelSpec × Kwargs)) :=
  let notCreated := (indices.filter (fun i => !i.existsFlag)).map (·.name)
  if notCreated = [] then
    if opt.objects = [] then
      buildKwargsIndices env.fieldError (buildFilter opt.filters)
        (buildFilter opt.excludes) opt.count opt.database
        (opt.missing && opt.action == .index) indices
    else
      buildKwargsObjects env.fieldError (buildFilter opt.filters)
        (buildFilter opt.excludes) opt.count
        (selectedOsModels env.registryModels env.indicesRaw validModels
          indices)
  else .error (.notCreated notCreated)

/-- The stage of `Command._manage_document` after object-name validation
(opensearch.py lines 105-172): resolve and validate index names, then
continue with the created-index check and kwargs construction. -/
def docValidateWithModels (env : Env) (opt : DocOptions)
    (validModels : List String) :
    Except ErrMsg (List (OSModelSpec × Kwargs)) :=
  match resolveIndices env.knownIndices opt.indices with
  | .error e => .error e
  | .ok indices => docValidatePost env opt validModels indices

/-- The pre-flight phase of `Command._manage_document` (opensearch.py
lines 89-172): build the filter and exclude predicates, validate object
names, resolve and validate index names, abort when any resolved index is
not created, then build the per-target kwargs while validating every
counting queryset.  Returns the (target, kwargs) pairs that the execution
phase will process, or the structured message of the first `exit(1)`. -/
def docValidate (env : Env) (opt : DocOptions) :
    Except ErrMsg (List (OSModelSpec × Kwargs)) :=
  match (if opt.objects = [] then .ok []
         else validateObjects (env.registryModels.map pyLower) opt.objects) with
  | .error e => .error e
  | .ok validModels => docValidateWithModels env opt validModels

/-- The confirmation loop (opensearch.py lines 179-186) over the inputs
available on stdin: an answer whose lowercase form is in `["yes", "y"]`
breaks out and proceeds; one in `["no", "n"]` exits with code 1; any other
answer re-prompts.  Exhausting the inputs leaves the command blocked. -/
def confirmLoop : List String → ConfirmOutcome
  | [] => .pending
  | p :: rest =>
    if pyLower p ∈ ["yes", "y"] then .proceed
    else if pyLower p ∈ ["no", "n"] then .abort
    else confirmLoop rest

/-- Modelled from the spec: `Document.update` with `raise_on_error=False`
(`django_opensearch_dsl/documents.py` is not under src/).  The engine
distinguishes accepted from rejected per document and the call returns the
aggregate: the number of accepted documents and the ordered list of
failure descriptors of the rejected ones; nothing is raised. -/
def documentUpdate (action : OpensearchAction)
    (outcomes : List (Option String)) : Nat × List ErrDescr :=
  (outcomes.countP (·.isNone),
   outcomes.filterMap (Option.map (fun r => ⟨action, r⟩)))

/-- The execution loop of `Command._manage_document` (opensearch.py lines
188-249): one `document.update(...)` call per (target, kwargs) pair, in
order, collecting each call's aggregate; a call's failures never abort
the loop.  The counter tracks the target's position, which selects its
per-document outcomes in the environment. -/
def executeTargetsAux (docOutcomes : Nat → List (Option String))
    (action : OpensearchAction) (i : Nat) :
    List (OSModelSpec × Kwargs) → List UpdateCall
  | [] => []
  | (m, kw) :: rest =>
    let r := documentUpdate action (docOutcomes i)
    ⟨m.djangoModel, kw, r.1, r.2⟩
      :: executeTargetsAux docOutcomes action (i + 1) rest

/-- Execution over all resolved targets, starting at position 0. -/
def executeTargets (docOutcomes : Nat → List (Option String))
    (action : OpensearchAction)
    (pairs : List (OSModelSpec × Kwargs)) : List UpdateCall :=
  executeTargetsAux docOutcomes action 0 pairs

/-- `Command._manage_document` (opensearch.py lines 70-252): pre-flight
validation, then — unless `--force` — the confirmation gate, then the
execution loop.  Every validation failure and the confirmation decline
call `exit(1)` before any update call. -/
def manageDocument (env : Env) (opt : DocOptions) : RunResult :=
  match docValidate env opt with
  | .error e => ⟨true, false, [e], [], []⟩
  | .ok pairs =>
    let kws := pairs.map Prod.snd
    if opt.force then
      ⟨false, false, [], kws, executeTargets env.docOutcomes opt.action pairs⟩
    else
      match confirmLoop env.confirmInputs with
      | .proceed =>
        ⟨false, false, [], kws, executeTargets env.docOutcomes opt.action pairs⟩
      | .abort => ⟨true, false, [], kws, []⟩
      | .pending => ⟨false, true, [], kws, []⟩

/-- The claim-side pre-flight failure condition: some object name unknown
(case-insensitively), some index name unknown, some resolved index not
created, or a store-rejected field lookup on some target of the branch
the run would take. -/
def preflightFailure (env : Env) (opt : DocOptions) : Bool :=
  let filter_ := buildFilter opt.filters
  let exclude := buildFilter opt.excludes
  let registeredLower := env.registryModels.map pyLower
  let knownNames := env.knownIndices.map (·.name)
  let resolved := resolvedIndexSet env opt
  opt.objects.any (fun m => pyLower m ∉ registeredLower) ||
  opt.indices.any (fun n => n ∉ knownNames) ||
  resolved.any (fun i => !i.existsFlag) ||
  (if opt.objects = [] then
    resolved.any (fun i => env.fieldError i.docType0.djangoModel filter_
      (missingExclude exclude i (opt.missing && opt.action == .index)))
  else
    (selectedOsModels env.registryModels env.indicesRaw opt.objects
        resolved).any
      (fun m => env.fieldError m.djangoModel filter_ exclude))

/-- The first target (in processing order) whose counting queryset raises
`FieldError`, mapped to the message the command writes for it. -/
def firstFieldErrorMsg (env : Env) (opt : DocOptions) : Option ErrMsg :=
  let filter_ := buildFilter opt.filters
  let exclude := buildFilter opt.excludes
  let resolved := resolvedIndexSet env opt
  if opt.objects = [] then
    (resolved.find? (fun i => env.fieldError i.docType0.djangoModel filter_
        (missingExclude exclude i (opt.missing && opt.action == .index)))).map
      (fun i => .fieldErrorIndex i.docType0.djangoModel i.name)
  else
    ((selectedOsModels env.registryModels env.indicesRaw opt.objects
          resolved).find?
        (fun m => env.fieldError m.djangoModel filter_ exclude)).map
      (fun m => .fieldErrorObjects m.djangoModel)

/-- Fixture: the registered document class of a model `Article`. -/
def osmArticle : OSModelSpec := ⟨"Article", "articles"⟩

/-- Fixture: the created index `articles`, holding documents 1 and 2. -/
def idxArticles : IndexSpec := ⟨"articles", true, ["1", "2"], osmArticle⟩

/-- Fixture: a registry with the single model `Article` on the created
index `articles`; the store accepts every lookup, the engine reports no
per-document outcome, stdin is empty. -/
def envArticle : Env :=
  ⟨[idxArticles], ["Article"], [("articles", [osmArticle])],
    fun _ _ _ => false, fun _ => [], []⟩

/-- Fixture: a `document index --force` invocation with no filters and no
target narrowing. -/
def baseOpt : DocOptions :=
  ⟨.index, [], [], true, [], [], 1, false, none, false, false, none, none,
    "offset"⟩

/-- Fixture: the registered document class of a model `Blog`. -/
def osmBlog : OSModelSpec := ⟨"Blog", "idx_b"⟩

/-- Fixture: the index `idx_b`, not created in the search engine. -/
def idxBlogMissing : IndexSpec := ⟨"idx_b", false, [], osmBlog⟩

/-- Fixture: the index `idx_b`, created. -/
def idxBlogCreated : IndexSpec := ⟨"idx_b", true, [], osmBlog⟩

/-- Fixture: two models on two indices, `articles` created but `idx_b`
not created. -/
def envTwoOneMissing : Env :=
  ⟨[idxArticles, idxBlogMissing], ["Article", "Blog"],
    [("articles", [osmArticle]), ("idx_b", [osmBlog])],
    fun _ _ _ => false, fun _ => [], []⟩

/-- Fixture: two models on two created indices, and a store that rejects
the field lookup of every queryset. -/
def envTwoAllFieldErr : Env :=
  ⟨[idxArticles, idxBlogCreated], ["Article", "Blog"],
    [("articles", [osmArticle]), ("idx_b", [osmBlog])],
    fun _ _ _ => true, fun _ => [], []⟩

/-- Fixture: the `Article` registry whose store rejects the field lookup
exactly for the model `Article`. -/
def envArticleFieldErr : Env :=
  ⟨[idxArticles], ["Article"], [("articles", [osmArticle])],
    fun m _ _ => m == "Article", fun _ => [], []⟩

/-- Fixture: the `Article` registry with an engine that accepts two of
each target's three documents and rejects one. -/
def envArticleOutcomes : Env :=
  ⟨[idxArticles], ["Article"], [("articles", [osmArticle])],
    fun _ _ _ => false, fun _ => [none, some "mapper_parsing", none], []⟩

/-- Fixture: the `Article` registry with one re-prompt and then a decline
on stdin. -/
def envArticleDecline : Env :=
  ⟨[idxArticles], ["Article"], [("articles", [osmArticle])],
    fun _ _ _ => false, fun _ => [], ["hmm", "NO"]⟩

/-- Fixture: a concrete record-satisfaction function (the record matches
an atomic lookup exactly when the lookup is `status`). -/
def satStatus : String → FilterValue → Bool := fun k _ => k == "status"
theorem pySplit_ne_nil (sep : Char) (cs : List Char) : pySplit sep cs ≠ [] := by
  induction cs with
  | nil => simp [pySplit]
  | cons c cs ih =>
    simp only [pySplit]
    split
    · simp
    · cases h : pySplit sep cs with
      | nil => simp
      | cons h t => simp

theorem pySplit_of_not_mem (sep : Char) (cs : List Char) (h : sep ∉ cs) :
    pySplit sep cs = [cs] := by
  induction cs with
  | nil => rfl
  | cons c cs ih =>
    simp only [List.mem_cons, not_or] at h
    simp only [pySplit, if_neg (Ne.symm h.1)]
    rw [ih h.2]

theorem pySplit_append (sep : Char) (l v : List Char) (h : sep ∉ l) :
    pySplit sep (l ++ sep :: v) = l :: pySplit sep v := by
  induction l with
  | nil => simp [pySplit]
  | cons c cs ih =>
    simp only [List.mem_cons, not_or] at h
    simp only [List.cons_append, pySplit, if_neg (Ne.symm h.1), List.append_eq]
    rw [ih h.2]

theorem length_pySplit (sep : Char) (cs : List Char) :
    (pySplit sep cs).length = cs.count sep + 1 := by
  induction cs with
  | nil => rfl
  | cons c cs ih =>
    simp only [pySplit]
    by_cases h : c = sep
    · subst h
      simp [List.count_cons, ih]
    · rw [if_neg h]
      cases hp : pySplit sep cs with
      | nil => exact absurd hp (pySplit_ne_nil sep cs)
      | cons x t =>
        rw [hp] at ih
        simp only [List.length_cons] at ih ⊢
        rw [List.count_cons, if_neg (by simp [h]), ih]

theorem dbFilter_none_iff (s : List Char) :
    dbFilter s = none ↔ (pySplit '=' s).length ≠ 2 := by
  unfold dbFilter
  cases h : pySplit '=' s with
  | nil => simp
  | cons a t =>
    cases t with
    | nil => simp
    | cons b t2 =>
      cases t2 with
      | nil => simp
      | cons c t3 => simp

/-- C3 counterexample: the string `a=b=c` contains at least one `=`, yet
the parser fails with the malformed-filter error instead of splitting on
the first `=`: `str.split("=")` splits on every `=`, so the two-name
unpacking raises `ValueError`. -/
theorem C3_counterexample :
    dbFilter ['a', '=', 'b', '=', 'c'] = none ∧
    '=' ∈ ['a', '=', 'b', '=', 'c'] := by
  constructor
  · rfl
  · decide

/-- C3 (amended): the filter parser succeeds exactly on strings containing
exactly one `=`; on `lookup=value` with a single `=` it returns the pair
(text before the `=`, coerced text after it), and it fails with the
malformed-filter error exactly when the number of `=` characters differs
from one. -/
theorem C3_split_characterisation :
    (∀ l v : List Char, '=' ∉ l → '=' ∉ v →
      dbFilter (l ++ '=' :: v) = some (l, parse v)) ∧
    (∀ s : List Char, dbFilter s = none ↔ s.count '=' ≠ 1) := by
  constructor
  · intro l v hl hv
    unfold dbFilter
    rw [pySplit_append '=' l v hl, pySplit_of_not_mem '=' v hv]
  · intro s
    rw [dbFilter_none_iff, length_pySplit]
    omega

/-- C3 witness: the amended characterisation evaluated on `st=1` (a split
into lookup `st` and int value 1) and on the `=`-free string `ab`. -/
theorem C3_split_witness :
    dbFilter (['s', 't'] ++ '=' :: ['1']) = some (['s', 't'], parse ['1']) ∧
    (dbFilter ['a', 'b'] = none ↔ (['a', 'b'] : List Char).count '=' ≠ 1) :=
  ⟨C3_split_characterisation.1 ['s', 't'] ['1'] (by decide) (by decide),
   C3_split_characterisation.2 ['a', 'b']⟩

theorem qMatches_foldl (sat : String → FilterValue → Bool) (q0 : DjangoQ)
    (rest : List (String × FilterValue)) :
    qMatches sat (rest.foldl (fun acc kv => .qand acc (.atom kv.1 kv.2)) q0)
      = (qMatches sat q0 && rest.all fun kv => sat kv.1 kv.2) := by
  induction rest generalizing q0 with
  | nil => simp
  | cons p ps ih =>
    simp only [List.foldl_cons, List.all_cons, ih, qMatches, Bool.and_assoc]

theorem selects_buildFilter (sat : String → FilterValue → Bool)
    (l : List (String × FilterValue)) :
    selects sat (buildFilter l) = l.all (fun kv => sat kv.1 kv.2) := by
  cases l with
  | nil => rfl
  | cons p ps =>
    simp only [buildFilter, selects, qMatches_foldl, qMatches, List.all_cons]

theorem perm_all_eq {α : Type} (p : α → Bool) {l l' : List α}
    (h : l.Perm l') : l.all p = l'.all p := by
  induction h with
  | nil => rfl
  | cons x _ ih => simp [List.all_cons, ih]
  | swap x y l => simp [List.all_cons, Bool.and_left_comm]
  | trans _ _ ih1 ih2 => rw [ih1, ih2]

/-- C8: filter combination is order-independent — for every record
(abstract satisfaction function) and every permutation of the supplied
lookup=value pairs, the predicate folded with AND selects the record in
one order exactly when it does in the other, so the selected set of
records is the same. -/
theorem C8_filter_order_independent (sat : String → FilterValue → Bool)
    (l l' : List (String × FilterValue)) (h : l.Perm l') :
    selects sat (buildFilter l) = selects sat (buildFilter l') := by
  rw [selects_buildFilter, selects_buildFilter]
  exact perm_all_eq _ h

/-- C8 witness: swapping two concrete filter pairs leaves the selection
unchanged on a concrete record. -/
theorem C8_filter_order_witness :
    selects satStatus (buildFilter
        [("status", .scalar (.intV 1)), ("date__gte", .scalar .null)])
      = selects satStatus (buildFilter
        [("date__gte", .scalar .null), ("status", .scalar (.intV 1))]) :=
  C8_filter_order_independent satStatus _ _
    (List.Perm.swap ("date__gte", FilterValue.scalar .null)
      ("status", FilterValue.scalar (.intV 1)) [])

theorem validateObjects_ok (reg : List String) (objs : List String)
    (h : ∀ m ∈ objs, pyLower m ∈ reg) :
    validateObjects reg objs = .ok objs := by
  induction objs with
  | nil => rfl
  | cons m rest ih =>
    simp only [validateObjects, if_pos (h m (List.mem_cons_self m rest))]
    rw [ih (fun x hx => h x (List.mem_cons_of_mem m hx))]
    rfl

theorem validateObjects_error (reg : List String) (objs : List String)
    (h : ∃ m ∈ objs, pyLower m ∉ reg) :
    ∃ e, validateObjects reg objs = .error e := by
  induction objs with
  | nil => simp at h
  | cons m rest ih =>
    by_cases hm : pyLower m ∈ reg
    · obtain ⟨x, hx, hxr⟩ := h
      rcases List.mem_cons.mp hx with rfl | hx'
      · exact absurd hm hxr
      · obtain ⟨e, he⟩ := ih ⟨x, hx', hxr⟩
        refine ⟨e, ?_⟩
        simp only [validateObjects, if_pos hm]
        rw [he]
        rfl
    · exact ⟨.unknownObject m reg, by simp only [validateObjects, if_neg hm]⟩

theorem resolveIndices_ok (env : Env) (opt : DocOptions)
    (h : ∀ n ∈ opt.indices, n ∈ env.knownIndices.map (·.name)) :
    resolveIndices env.knownIndices opt.indices
      = .ok (resolvedIndexSet env opt) := by
  by_cases hn : opt.indices = []
  · rw [hn]
    simp [resolveIndices, resolvedIndexSet, hn]
  · simp only [resolveIndices, if_neg hn, resolvedIndexSet, hn, if_false]
    have hf : opt.indices.filter
        (fun n => n ∉ env.knownIndices.map (·.name)) = [] := by
      rw [List.filter_eq_nil_iff]
      intro a ha
      simpa using h a ha
    rw [hf]
    simp

theorem resolveIndices_error (known : List IndexSpec) (names : List String)
    (h : ∃ n ∈ names, n ∉ known.map (·.name)) :
    ∃ e, resolveIndices known names = .error e := by
  have hn : names ≠ [] := by
    rintro rfl
    simp at h
  have hf : names.filter (fun n => n ∉ known.map (·.name)) ≠ [] := by
    obtain ⟨n, hn1, hn2⟩ := h
    intro hc
    have h3 := List.filter_eq_nil_iff.mp hc n hn1
    simp only [decide_not, Bool.not_eq_true', decide_eq_false_iff_not,
      not_not] at h3
    exact hn2 h3
  exact ⟨.unknownIndices (names.filter (fun n => n ∉ known.map (·.name)))
    (known.map (·.name)), by simp only [resolveIndices, if_neg hn, if_neg hf]⟩

theorem buildKwargsObjects_ok
    (fE : String → Option DjangoQ → Option DjangoQ → Bool)
    (f e : Option DjangoQ) (c : Option Int) (sel : List OSModelSpec)
    (h : ∀ m ∈ sel, fE m.djangoModel f e = false) :
    buildKwargsObjects fE f e c sel
      = .ok (sel.map (fun m => (m, ⟨none, f, e, c⟩))) := by
  induction sel with
  | nil => rfl
  | cons m rest ih =>
    simp only [buildKwargsObjects, h m (List.mem_cons_self m rest),
      Bool.false_eq_true, if_false]
    rw [ih (fun x hx => h x (List.mem_cons_of_mem m hx))]
    rfl

theorem buildKwargsObjects_first_error
    (fE : String → Option DjangoQ → Option DjangoQ → Bool)
    (f e : Option DjangoQ) (c : Option Int) (sel : List OSModelSpec)
    (m : OSModelSpec)
    (h : sel.find? (fun x => fE x.djangoModel f e) = some m) :
    buildKwargsObjects fE f e c sel
      = .error (.fieldErrorObjects m.djangoModel) := by
  induction sel with
  | nil => simp at h
  | cons x rest ih =>
    by_cases hx : fE x.djangoModel f e = true
    · rw [List.find?_cons_of_pos (p := fun y => fE y.djangoModel f e)
        rest hx] at h
      cases h
      simp only [buildKwargsObjects, hx, if_true]
    · rw [List.find?_cons_of_neg (p := fun y => fE y.djangoModel f e)
        rest (by simpa using hx)] at h
      simp only [buildKwargsObjects, hx, if_false]
      rw [ih h]
      rfl

theorem buildKwargsObjects_error_shape
    (fE : String → Option DjangoQ → Option DjangoQ → Bool)
    (f e : Option DjangoQ) (c : Option Int) (sel : List OSModelSpec)
    (msg : ErrMsg)
    (h : buildKwargsObjects fE f e c sel = .error msg) :
    ∃ m, msg = .fieldErrorObjects m := by
  induction sel with
  | nil => simp [buildKwargsObjects] at h
  | cons x rest ih =>
    by_cases hx : fE x.djangoModel f e = true
    · simp only [buildKwargsObjects, hx, if_true] at h
      cases h
      exact ⟨x.djangoModel, rfl⟩
    · simp only [buildKwargsObjects, hx, if_false] at h
      cases hr : buildKwargsObjects fE f e c rest with
      | error e2 =>
        rw [hr] at h
        cases h
        exact ih hr
      | ok v =>
        rw [hr] at h
        simp [Except.map] at h

theorem buildKwargsIndices_ok
    (fE : String → Option DjangoQ → Option DjangoQ → Bool)
    (f e : Option DjangoQ) (c : Option Int) (db : Option String) (am : Bool)
    (idxs : List IndexSpec)
    (h : ∀ i ∈ idxs, fE i.docType0.djangoModel f
      (missingExclude e i am) = false) :
    buildKwargsIndices fE f e c db am idxs
      = .ok (idxs.map (fun i =>
          (i.docType0, ⟨some db, f, missingExclude e i am, c⟩))) := by
  induction idxs with
  | nil => rfl
  | cons i rest ih =>
    simp only [buildKwargsIndices, h i (List.mem_cons_self i rest),
      Bool.false_eq_true, if_false]
    rw [ih (fun x hx => h x (List.mem_cons_of_mem i hx))]
    rfl

theorem buildKwargsIndices_first_error
    (fE : String → Option DjangoQ → Option DjangoQ → Bool)
    (f e : Option DjangoQ) (c : Option Int) (db : Option String) (am : Bool)
    (idxs : List IndexSpec) (i : IndexSpec)
    (h : idxs.find? (fun x => fE x.docType0.djangoModel f
      (missingExclude e x am)) = some i) :
    buildKwargsIndices fE f e c db am idxs
      = .error (.fieldErrorIndex i.docType0.djangoModel i.name) := by
  induction idxs with
  | nil => simp at h
  | cons x rest ih =>
    by_cases hx : fE x.docType0.djangoModel f
        (missingExclude e x am) = true
    · rw [List.find?_cons_of_pos
        (p := fun y => fE y.docType0.djangoModel f
          (missingExclude e y am)) rest hx] at h
      cases h
      simp only [buildKwargsIndices, hx, if_true]
    · rw [List.find?_cons_of_neg
        (p := fun y => fE y.docType0.djangoModel f
          (missingExclude e y am)) rest (by simpa using hx)] at h
      simp only [buildKwargsIndices, hx, if_false]
      rw [ih h]
      rfl

theorem buildKwargsIndices_error_shape
    (fE : String → Option DjangoQ → Option DjangoQ → Bool)
    (f e : Option DjangoQ) (c : Option Int) (db : Option String) (am : Bool)
    (idxs : List IndexSpec) (msg : ErrMsg)
    (h : buildKwargsIndices fE f e c db am idxs = .error msg) :
    ∃ m i, msg = .fieldErrorIndex m i := by
  induction idxs with
  | nil => simp [buildKwargsIndices] at h
  | cons x rest ih =>
    by_cases hx : fE x.docType0.djangoModel f
        (missingExclude e x am) = true
    · simp only [buildKwargsIndices, hx, if_true] at h
      cases h
      exact ⟨x.docType0.djangoModel, x.name, rfl⟩
    · simp only [buildKwargsIndices, hx, if_false] at h
      cases hr : buildKwargsIndices fE f e c db am rest with
      | error e2 =>
        rw [hr] at h
        cases h
        exact ih hr
      | ok v =>
        rw [hr] at h
        simp [Except.map] at h

theorem find?_some_of_exists {α : Type} (p : α → Bool) (l : List α)
    (h : ∃ x ∈ l, p x = true) : ∃ y, l.find? p = some y := by
  induction l with
  | nil => simp at h
  | cons a t ih =>
    by_cases ha : p a = true
    · exact ⟨a, List.find?_cons_of_pos (p := p) t ha⟩
    · obtain ⟨x, hx, hpx⟩ := h
      rcases List.mem_cons.mp hx with rfl | hx'
      · exact absurd hpx ha
      · obtain ⟨y, hy⟩ := ih ⟨x, hx', hpx⟩
        exact ⟨y, by
          rw [List.find?_cons_of_neg (p := p) t (by simpa using ha), hy]⟩

theorem docValidate_error_unknown_object (env : Env) (opt : DocOptions)
    (h : ∃ m ∈ opt.objects,
      pyLower m ∉ env.registryModels.map pyLower) :
    ∃ e, docValidate env opt = .error e := by
  have hobj : opt.objects ≠ [] := by
    rintro hO
    rw [hO] at h
    simp at h
  obtain ⟨e, he⟩ := validateObjects_error _ _ h
  refine ⟨e, ?_⟩
  unfold docValidate
  rw [if_neg hobj, he]

theorem docValidate_error_unknown_index (env : Env) (opt : DocOptions)
    (h : ∃ n ∈ opt.indices, n ∉ env.knownIndices.map (·.name)) :
    ∃ e, docValidate env opt = .error e := by
  obtain ⟨e, he⟩ := resolveIndices_error env.knownIndices opt.indices h
  unfold docValidate
  by_cases hobj : opt.objects = []
  · rw [if_pos hobj]
    refine ⟨e, ?_⟩
    show docValidateWithModels env opt [] = .error e
    unfold docValidateWithModels
    rw [he]
  · rw [if_neg hobj]
    cases hv : validateObjects (env.registryModels.map pyLower) opt.objects with
    | error e2 => exact ⟨e2, rfl⟩
    | ok vm =>
      refine ⟨e, ?_⟩
      show docValidateWithModels env opt vm = .error e
      unfold docValidateWithModels
      rw [he]

theorem docValidate_objects_ok (env : Env) (opt : DocOptions)
    (h : ∀ m ∈ opt.objects, pyLower m ∈ env.registryModels.map pyLower) :
    docValidate env opt = docValidateWithModels env opt opt.objects := by
  unfold docValidate
  by_cases hobj : opt.objects = []
  · rw [if_pos hobj, hobj]
  · rw [if_neg hobj, validateObjects_ok _ _ h]

theorem docValidateWithModels_resolved (env : Env) (opt : DocOptions)
    (vm : List String)
    (h : ∀ n ∈ opt.indices, n ∈ env.knownIndices.map (·.name)) :
    docValidateWithModels env opt vm
      = docValidatePost env opt vm (resolvedIndexSet env opt) := by
  unfold docValidateWithModels
  rw [resolveIndices_ok env opt h]

theorem docValidatePost_not_created (env : Env) (opt : DocOptions)
    (vm : List String) (indices : List IndexSpec)
    (h : (indices.filter (fun i => !i.existsFlag)).map (·.name) ≠ []) :
    docValidatePost env opt vm indices
      = .error (.notCreated
          ((indices.filter (fun i => !i.existsFlag)).map (·.name))) := by
  unfold docValidatePost
  rw [if_neg h]

theorem docValidate_error_of_preflight (env : Env) (opt : DocOptions)
    (h : preflightFailure env opt = true) :
    ∃ e, docValidate env opt = .error e := by
  by_cases hobj : ∀ m ∈ opt.objects, pyLower m ∈ env.registryModels.map pyLower
  case neg =>
    push_neg at hobj
    exact docValidate_error_unknown_object env opt hobj
  case pos =>
  by_cases hidx : ∀ n ∈ opt.indices, n ∈ env.knownIndices.map (·.name)
  case neg =>
    push_neg at hidx
    exact docValidate_error_unknown_index env opt hidx
  case pos =>
  rw [docValidate_objects_ok env opt hobj,
    docValidateWithModels_resolved env opt _ hidx]
  by_cases hnc : ((resolvedIndexSet env opt).filter
      (fun i => !i.existsFlag)).map (·.name) = []
  case neg =>
    exact ⟨_, docValidatePost_not_created env opt _ _ hnc⟩
  case pos =>
  have hext : ∀ i ∈ resolvedIndexSet env opt, i.existsFlag = true := by
    intro i hi
    have hfe := List.map_eq_nil_iff.mp hnc
    have := List.filter_eq_nil_iff.mp hfe i hi
    simpa using this
  by_cases ho : opt.objects = []
  · simp only [preflightFailure, if_pos ho, Bool.or_eq_true] at h
    rcases h with ((h1 | h2) | h3) | h4
    · rw [List.any_eq_true] at h1
      obtain ⟨m, hm, hml⟩ := h1
      rw [decide_eq_true_eq] at hml
      exact absurd (hobj m hm) hml
    · rw [List.any_eq_true] at h2
      obtain ⟨n, hn, hnl⟩ := h2
      rw [decide_eq_true_eq] at hnl
      exact absurd (hidx n hn) hnl
    · rw [List.any_eq_true] at h3
      obtain ⟨i, hi, hif⟩ := h3
      rw [hext i hi] at hif
      simp at hif
    · unfold docValidatePost
      rw [if_pos hnc, if_pos ho]
      rw [List.any_eq_true] at h4
      obtain ⟨y, hy⟩ := find?_some_of_exists _ _ h4
      exact ⟨_, buildKwargsIndices_first_error env.fieldError _ _ _ _ _ _ y hy⟩
  · simp only [preflightFailure, if_neg ho, Bool.or_eq_true] at h
    rcases h with ((h1 | h2) | h3) | h4
    · rw [List.any_eq_true] at h1
      obtain ⟨m, hm, hml⟩ := h1
      rw [decide_eq_true_eq] at hml
      exact absurd (hobj m hm) hml
    · rw [List.any_eq_true] at h2
      obtain ⟨n, hn, hnl⟩ := h2
      rw [decide_eq_true_eq] at hnl
      exact absurd (hidx n hn) hnl
    · rw [List.any_eq_true] at h3
      obtain ⟨i, hi, hif⟩ := h3
      rw [hext i hi] at hif
      simp at hif
    · unfold docValidatePost
      rw [if_pos hnc, if_neg ho]
      rw [List.any_eq_true] at h4
      obtain ⟨y, hy⟩ := find?_some_of_exists _ _ h4
      exact ⟨_, buildKwargsObjects_first_error env.fieldError _ _ _ _ y hy⟩

/-- C1: for every run of the document command that fails pre-flight
validation (an unknown object name, an unknown index name, a not-created
resolved index, or a store-rejected field lookup on any target), the
command exits with code 1 and performs zero writes: no document update
call is made for any target. -/
theorem C1_preflight_no_writes (env : Env) (opt : DocOptions)
    (h : preflightFailure env opt = true) :
    (manageDocument env opt).exit1 = true ∧
    (manageDocument env opt).updates = [] := by
  obtain ⟨e, he⟩ := docValidate_error_of_preflight env opt h
  unfold manageDocument
  rw [he]
  exact ⟨rfl, rfl⟩

/-- C1 witness: an unknown object name `nope` makes the concrete run exit
with code 1 and perform no update call. -/
theorem C1_preflight_witness :
    (manageDocument envArticle { baseOpt with objects := ["nope"] }).exit1 = true ∧
    (manageDocument envArticle { baseOpt with objects := ["nope"] }).updates = [] :=
  C1_preflight_no_writes envArticle { baseOpt with objects := ["nope"] } (by decide)

/-- C4: code bug — object-name matching is case-insensitive only in the
validation step.  With the registered model `Article`, the run given the
object name `Article` passes validation (no fail-fast) but resolves zero
targets, because `valid_models` keeps the original casing (line 100)
while the resolution at line 131 compares lowercased registered names
against it; the same run given the all-lowercase name `article` processes
the model.  The claim that every case-insensitive match is included in
the processed targets is therefore violated. -/
theorem C4_case_sensitivity_bug :
    (manageDocument envArticle { baseOpt with objects := ["Article"] }).exit1
        = false ∧
    (manageDocument envArticle { baseOpt with objects := ["Article"] }).updates
        = [] ∧
    (manageDocument envArticle { baseOpt with objects := ["article"] }).updates.length
        = 1 := by
  refine ⟨?_, ?_, ?_⟩ <;> decide

/-- C2: code bug — with action `index` and the missing flag set, the
objects branch builds its kwargs without the pk-based exclude (the
`# Handle --missing` comment at line 144 is followed by no handling),
while the index branch conjoins `Q(pk__in=[stored ids])` onto the user
excludes.  On the same registry (index `articles` holding ids 1 and 2)
the run selected by object name carries no exclude, the run selected by
index carries the pk__in exclude. -/
theorem C2_missing_not_applied_objects :
    (manageDocument envArticle
        { baseOpt with objects := ["article"], missing := true }).kwargsList
      = [⟨none, none, none, none⟩] ∧
    (manageDocument envArticle { baseOpt with missing := true }).kwargsList
      = [⟨some none, none,
          some (.atom "pk__in" (.listV [.strV "1", .strV "2"])), none⟩] := by
  refine ⟨?_, ?_⟩ <;> decide

/-- C5 counterexample: with two resolved targets whose counting querysets
both raise FieldError, the run reports exactly one error — the first
target's, naming its model — before aborting; the second failing target's
error is never reported. -/
theorem C5_counterexample :
    ((resolvedIndexSet envTwoAllFieldErr baseOpt).countP
        (fun i => envTwoAllFieldErr.fieldError i.docType0.djangoModel
          (buildFilter baseOpt.filters)
          (missingExclude (buildFilter baseOpt.excludes) i
            (baseOpt.missing && baseOpt.action == .index)))) = 2 ∧
    (manageDocument envTwoAllFieldErr baseOpt).exit1 = true ∧
    (manageDocument envTwoAllFieldErr baseOpt).errorsReported
      = [.fieldErrorIndex "Article" "articles"] := by
  refine ⟨?_, ?_, ?_⟩ <;> decide

/-- C5 (amended): for every run in which the store rejects the field
lookup on at least one resolved target, the run aborts with exit code 1
and zero writes after reporting exactly one error — that of the first
failing target in processing order, naming the offending model; later
failing targets' errors are not reported. -/
theorem C5_first_error_only (env : Env) (opt : DocOptions) (e : ErrMsg)
    (hobj : ∀ m ∈ opt.objects, pyLower m ∈ env.registryModels.map pyLower)
    (hidx : ∀ n ∈ opt.indices, n ∈ env.knownIndices.map (·.name))
    (hext : ((resolvedIndexSet env opt).filter
      (fun i => !i.existsFlag)).map (·.name) = [])
    (hfirst : firstFieldErrorMsg env opt = some e) :
    manageDocument env opt = ⟨true, false, [e], [], []⟩ := by
  have hv : docValidate env opt = .error e := by
    rw [docValidate_objects_ok env opt hobj,
      docValidateWithModels_resolved env opt _ hidx]
    unfold docValidatePost
    rw [if_pos hext]
    simp only [firstFieldErrorMsg] at hfirst
    by_cases ho : opt.objects = []
    · rw [if_pos ho]
      rw [if_pos ho] at hfirst
      cases hf : (resolvedIndexSet env opt).find?
          (fun i => env.fieldError i.docType0.djangoModel
            (buildFilter opt.filters)
            (missingExclude (buildFilter opt.excludes) i
              (opt.missing && opt.action == .index))) with
      | none =>
        rw [hf] at hfirst
        simp at hfirst
      | some i =>
        rw [hf] at hfirst
        simp only [Option.map_some', Option.some.injEq] at hfirst
        rw [buildKwargsIndices_first_error env.fieldError _ _ _ _ _ _ i hf,
          hfirst]
    · rw [if_neg ho]
      rw [if_neg ho] at hfirst
      cases hf : (selectedOsModels env.registryModels env.indicesRaw
          opt.objects (resolvedIndexSet env opt)).find?
          (fun m => env.fieldError m.djangoModel (buildFilter opt.filters)
            (buildFilter opt.excludes)) with
      | none =>
        rw [hf] at hfirst
        simp at hfirst
      | some m =>
        rw [hf] at hfirst
        simp only [Option.map_some', Option.some.injEq] at hfirst
        rw [buildKwargsObjects_first_error env.fieldError _ _ _ _ m hf,
          hfirst]
  unfold manageDocument
  rw [hv]

/-- C5 witness: a single target whose queryset raises FieldError makes the
run abort reporting that target's error, naming the model `Article`. -/
theorem C5_first_error_witness :
    manageDocument envArticleFieldErr baseOpt
      = ⟨true, false, [.fieldErrorIndex "Article" "articles"], [], []⟩ :=
  C5_first_error_only envArticleFieldErr baseOpt
    (.fieldErrorIndex "Article" "articles")
    (by decide) (by decide) (by decide) (by decide)

/-- C6 counterexample: the run narrowed to the object `article`, whose
only index `articles` is created, is nevertheless aborted by the
created-index check because the unrelated registered index `idx_b` is not
created: the check runs over every registered index, not only the
narrowed targets' indices. -/
theorem C6_counterexample :
    manageDocument envTwoOneMissing { baseOpt with objects := ["article"] }
      = ⟨true, false, [.notCreated ["idx_b"]], [], []⟩ ∧
    (selectedOsModels envTwoOneMissing.registryModels
        envTwoOneMissing.indicesRaw ["article"]
        envTwoOneMissing.knownIndices).all
      (fun osm => decide (osm.indexName = "articles")) = true ∧
    ((envTwoOneMissing.knownIndices.filter
        (fun i => decide (i.name = "articles"))).all (·.existsFlag)) = true := by
  refine ⟨?_, ?_, ?_⟩ <;> decide

/-- C6 (amended): with all object and index names valid, the
created-index pre-check aborts the run (exit 1, zero writes, printing the
list of not-created index names) exactly when the index-resolved set —
the registered indices narrowed by the given index names, or all
registered indices when none are given — contains a not-created index;
object-name narrowing does not reduce the checked set. -/
theorem C6_not_created_check (env : Env) (opt : DocOptions)
    (hobj : ∀ m ∈ opt.objects, pyLower m ∈ env.registryModels.map pyLower)
    (hidx : ∀ n ∈ opt.indices, n ∈ env.knownIndices.map (·.name)) :
    (((resolvedIndexSet env opt).filter (fun i => !i.existsFlag)).map (·.name)
        ≠ [] →
      manageDocument env opt = ⟨true, false,
        [.notCreated (((resolvedIndexSet env opt).filter
          (fun i => !i.existsFlag)).map (·.name))], [], []⟩) ∧
    (((resolvedIndexSet env opt).filter (fun i => !i.existsFlag)).map (·.name)
        = [] →
      ∀ ns, ErrMsg.notCreated ns ∉ (manageDocument env opt).errorsReported) := by
  have hvchain : docValidate env opt
      = docValidatePost env opt opt.objects (resolvedIndexSet env opt) := by
    rw [docValidate_objects_ok env opt hobj,
      docValidateWithModels_resolved env opt _ hidx]
  constructor
  · intro h
    have hv : docValidate env opt = .error (.notCreated
        (((resolvedIndexSet env opt).filter
          (fun i => !i.existsFlag)).map (·.name))) := by
      rw [hvchain]
      exact docValidatePost_not_created env opt _ _ h
    unfold manageDocument
    rw [hv]
  · intro h ns hmem
    unfold manageDocument at hmem
    cases hv : docValidate env opt with
    | error e =>
      rw [hv] at hmem
      simp at hmem
      rw [hvchain] at hv
      unfold docValidatePost at hv
      rw [if_pos h] at hv
      by_cases ho : opt.objects = []
      · rw [if_pos ho] at hv
        obtain ⟨m, i, hei⟩ :=
          buildKwargsIndices_error_shape env.fieldError _ _ _ _ _ _ _ hv
        rw [hei] at hmem
        simp at hmem
      · rw [if_neg ho] at hv
        obtain ⟨m, hei⟩ :=
          buildKwargsObjects_error_shape env.fieldError _ _ _ _ _ hv
        rw [hei] at hmem
        simp at hmem
    | ok pairs =>
      rw [hv] at hmem
      by_cases hf : opt.force = true
      · simp [hf] at hmem
      · simp only [Bool.not_eq_true] at hf
        cases hc : confirmLoop env.confirmInputs <;> simp [hf, hc] at hmem

/-- C6 witness: the amended check evaluated on a registry whose index
`idx_b` is not created (abort printing `idx_b`) and on a registry whose
single index is created (no not-created message is ever reported). -/
theorem C6_not_created_witness :
    manageDocument envTwoOneMissing baseOpt
      = ⟨true, false, [.notCreated ["idx_b"]], [], []⟩ ∧
    ErrMsg.notCreated ["idx_b"] ∉ (manageDocument envArticle baseOpt).errorsReported :=
  ⟨(C6_not_created_check envTwoOneMissing baseOpt (by decide) (by decide)).1
      (by decide),
   (C6_not_created_check envArticle baseOpt (by decide) (by decide)).2
      (by decide) ["idx_b"]⟩

theorem length_executeTargetsAux (dO : Nat → List (Option String))
    (a : OpensearchAction) :
    ∀ (pairs : List (OSModelSpec × Kwargs)) (k : Nat),
      (executeTargetsAux dO a k pairs).length = pairs.length := by
  intro pairs
  induction pairs with
  | nil => intro k; rfl
  | cons p rest ih =>
    intro k
    obtain ⟨m, kw⟩ := p
    simp only [executeTargetsAux, List.length_cons, ih]

theorem countP_isNone_eq (o : List (Option String)) :
    o.countP (·.isNone) = o.length - o.countP (·.isSome) := by
  induction o with
  | nil => rfl
  | cons x t ih =>
    have hle : t.countP (fun y => y.isSome) ≤ t.length :=
      List.countP_le_length _
    cases x with
    | none =>
      have h1 : ((none :: t : List (Option String)).countP fun y => y.isNone)
          = (t.countP fun y => y.isNone) + 1 := by
        simp [List.countP_cons]
      have h2 : ((none :: t : List (Option String)).countP fun y => y.isSome)
          = t.countP fun y => y.isSome := by
        simp [List.countP_cons]
      rw [h1, h2, List.length_cons, ih]
      omega
    | some v =>
      have h1 : ((some v :: t : List (Option String)).countP fun y => y.isNone)
          = t.countP fun y => y.isNone := by
        simp [List.countP_cons]
      have h2 : ((some v :: t : List (Option String)).countP fun y => y.isSome)
          = (t.countP fun y => y.isSome) + 1 := by
        simp [List.countP_cons]
      rw [h1, h2, List.length_cons, ih]
      omega

theorem length_filterMap_isSome (a : OpensearchAction)
    (o : List (Option String)) :
    (o.filterMap (Option.map (fun r => (⟨a, r⟩ : ErrDescr)))).length
      = o.countP (·.isSome) := by
  induction o with
  | nil => rfl
  | cons x t ih =>
    cases x <;>
      simp [List.filterMap_cons, ih, List.countP_cons]

theorem executeTargetsAux_get? (dO : Nat → List (Option String))
    (a : OpensearchAction) :
    ∀ (pairs : List (OSModelSpec × Kwargs)) (k i : Nat), i < pairs.length →
      ∃ u, (executeTargetsAux dO a k pairs).get? i = some u ∧
        u.success = (dO (k + i)).countP (·.isNone) ∧
        u.errors = (dO (k + i)).filterMap
          (Option.map (fun r => (⟨a, r⟩ : ErrDescr))) := by
  intro pairs
  induction pairs with
  | nil =>
    intro k i h
    simp at h
  | cons p rest ih =>
    intro k i h
    obtain ⟨m, kw⟩ := p
    cases i with
    | zero => exact ⟨_, rfl, rfl, rfl⟩
    | succ j =>
      have h' : j < rest.length := by
        simp only [List.length_cons] at h
        omega
      obtain ⟨u, hu, hs, he⟩ := ih (k + 1) j h'
      have harith : k + 1 + j = k + (j + 1) := by omega
      rw [harith] at hs he
      refine ⟨u, ?_, hs, he⟩
      rw [show (executeTargetsAux dO a k ((m, kw) :: rest)).get? (j + 1)
          = (executeTargetsAux dO a (k + 1) rest).get? j from rfl]
      exact hu

/-- C7: per-document engine failures are collected, never raised — for
every resolved target whose batch of N documents has M engine-rejected
documents, the recorded aggregate has success N − M and exactly M error
descriptors, and the command still processes every remaining target (one
update call per resolved target). -/
theorem C7_partial_failure_isolation (env : Env) (opt : DocOptions)
    (pairs : List (OSModelSpec × Kwargs))
    (hok : docValidate env opt = .ok pairs)
    (hgo : opt.force = true ∨ confirmLoop env.confirmInputs = .proceed) :
    (manageDocument env opt).exit1 = false ∧
    (manageDocument env opt).updates.length = pairs.length ∧
    ∀ i, i < pairs.length →
      ∃ u, (manageDocument env opt).updates.get? i = some u ∧
        u.success = (env.docOutcomes i).length
            - (env.docOutcomes i).countP (·.isSome) ∧
        u.errors.length = (env.docOutcomes i).countP (·.isSome) := by
  have hrun : manageDocument env opt
      = ⟨false, false, [], pairs.map Prod.snd,
          executeTargets env.docOutcomes opt.action pairs⟩ := by
    unfold manageDocument
    rw [hok]
    rcases hgo with hf | hc
    · simp [hf]
    · by_cases hf : opt.force = true
      · simp [hf]
      · simp only [Bool.not_eq_true] at hf
        simp [hf, hc]
  have hup : (manageDocument env opt).updates
      = executeTargetsAux env.docOutcomes opt.action 0 pairs := by
    rw [hrun]
    rfl
  refine ⟨?_, ?_, ?_⟩
  · rw [hrun]
  · rw [hup]
    exact length_executeTargetsAux env.docOutcomes opt.action pairs 0
  · intro i hi
    obtain ⟨u, hu, hs, he⟩ :=
      executeTargetsAux_get? env.docOutcomes opt.action pairs 0 i hi
    rw [Nat.zero_add] at hs he
    refine ⟨u, ?_, ?_, ?_⟩
    · rw [hup]
      exact hu
    · rw [hs, countP_isNone_eq]
    · rw [he, length_filterMap_isSome]

/-- C7 witness: a concrete target whose three documents include one
engine rejection still yields one completed update call and no abort. -/
theorem C7_partial_failure_witness :
    (manageDocument envArticleOutcomes baseOpt).exit1 = false ∧
    (manageDocument envArticleOutcomes baseOpt).updates.length = 1 := by
  have h := C7_partial_failure_isolation envArticleOutcomes baseOpt
    [(osmArticle, ⟨some none, none, none, none⟩)] rfl (Or.inl rfl)
  exact ⟨h.1, h.2.1⟩

/-- C9: without the force flag, execution is gated on the confirmation
loop — an input whose lowercase form is yes/y proceeds, one whose
lowercase form is no/n aborts with a non-zero exit and zero writes, any
other input re-prompts without terminating; with the force flag set, no
confirmation is requested (stdin is ignored entirely). -/
theorem C9_confirmation_gate :
    (∀ (x : String) (rest : List String), pyLower x ∈ ["yes", "y"] →
      confirmLoop (x :: rest) = .proceed) ∧
    (∀ (x : String) (rest : List String), pyLower x ∈ ["no", "n"] →
      confirmLoop (x :: rest) = .abort) ∧
    (∀ (x : String) (rest : List String),
      pyLower x ∉ ["yes", "y", "no", "n"] →
      confirmLoop (x :: rest) = confirmLoop rest) ∧
    (∀ (env : Env) (opt : DocOptions) (pairs : List (OSModelSpec × Kwargs)),
      opt.force = false → docValidate env opt = .ok pairs →
      confirmLoop env.confirmInputs = .abort →
      (manageDocument env opt).exit1 = true ∧
      (manageDocument env opt).updates = []) ∧
    (∀ (env : Env) (opt : DocOptions) (inputs : List String),
      opt.force = true →
      manageDocument { env with confirmInputs := inputs } opt
        = manageDocument env opt) := by
  refine ⟨?_, ?_, ?_, ?_, ?_⟩
  · intro x rest hx
    unfold confirmLoop
    rw [if_pos hx]
  · intro x rest hx
    simp only [List.mem_cons, List.not_mem_nil, or_false] at hx
    unfold confirmLoop
    rcases hx with h | h <;>
      rw [h, if_neg (by decide), if_pos (by decide)]
  · intro x rest hx
    simp only [List.mem_cons, List.not_mem_nil, or_false, not_or] at hx
    obtain ⟨h1, h2, h3, h4⟩ := hx
    rw [show confirmLoop (x :: rest)
        = if pyLower x ∈ ["yes", "y"] then ConfirmOutcome.proceed
          else if pyLower x ∈ ["no", "n"] then ConfirmOutcome.abort
          else confirmLoop rest from rfl]
    rw [if_neg (by
        simp only [List.mem_cons, List.not_mem_nil, or_false, not_or]
        exact ⟨h1, h2⟩),
      if_neg (by
        simp only [List.mem_cons, List.not_mem_nil, or_false, not_or]
        exact ⟨h3, h4⟩)]
  · intro env opt pairs hf hok hc
    unfold manageDocument
    rw [hok]
    simp [hf, hc]
  · intro env opt inputs hf
    unfold manageDocument
    rw [show docValidate { env with confirmInputs := inputs } opt
        = docValidate env opt from rfl]
    cases docValidate env opt with
    | error e => rfl
    | ok pairs =>
      rw [hf]
      rfl
/-- C9 witness: the gate evaluated concretely — `YES` proceeds, `N`
aborts, `maybe` re-prompts, a run declined on stdin exits 1 with zero
writes, and a forced run gives the same result whatever stdin holds. -/
theorem C9_confirmation_witness :
    confirmLoop ["YES"] = .proceed ∧
    confirmLoop ["N"] = .abort ∧
    confirmLoop ["maybe"] = confirmLoop [] ∧
    ((manageDocument envArticleDecline { baseOpt with force := false }).exit1
        = true ∧
     (manageDocument envArticleDecline { baseOpt with force := false }).updates
        = []) ∧
    manageDocument { envArticle with confirmInputs := ["ignored"] } baseOpt
      = manageDocument envArticle baseOpt :=
  ⟨C9_confirmation_gate.1 "YES" [] (by decide),
   C9_confirmation_gate.2.1 "N" [] (by decide),
   C9_confirmation_gate.2.2.1 "maybe" [] (by decide),
   C9_confirmation_gate.2.2.2.1 envArticleDecline
     { baseOpt with force := false }
     [(osmArticle, ⟨some none, none, none, none⟩)] rfl rfl (by decide),
   C9_confirmation_gate.2.2.2.2 envArticle baseOpt ["ignored"] rfl⟩

theorem docValidate_database_independent (env : Env) (opt : DocOptions)
    (d1 d2 : Option String) (h : opt.objects ≠ []) :
    docValidate env { opt with database := d1 }
      = docValidate env { opt with database := d2 } := by
  simp only [docValidate, docValidateWithModels, docValidatePost]
  rw [if_neg h]
  cases validateObjects (env.registryModels.map pyLower) opt.objects with
  | error e => rfl
  | ok vm =>
    cases resolveIndices env.knownIndices opt.indices with
    | error e => rfl
    | ok indices =>
      dsimp only
      by_cases hnc : (indices.filter (fun i => !i.existsFlag)).map (·.name) = []
      · rw [if_pos hnc, if_pos hnc, if_neg h, if_neg h]
      · rw [if_neg hnc, if_neg hnc]

/-- C10: when object names are given, the database option has no effect —
two runs identical except for the database option produce the same
result, in particular the same kwargs for queryset construction and for
the indexing queryset (the objects branch omits the db_alias entry). -/
theorem C10_database_no_effect (env : Env) (opt : DocOptions)
    (d1 d2 : Option String) (h : opt.objects ≠ []) :
    manageDocument env { opt with database := d1 }
      = manageDocument env { opt with database := d2 } := by
  unfold manageDocument
  rw [docValidate_database_independent env opt d1 d2 h]

/-- C10 witness: a run on the objects branch with a named replica
database equals the same run with no database option. -/
theorem C10_database_witness :
    manageDocument envArticle
        { baseOpt with objects := ["article"], database := some "replica" }
      = manageDocument envArticle
        { baseOpt with objects := ["article"], database := none } :=
  C10_database_no_effect envArticle { baseOpt with objects := ["article"] }
    (some "replica") none (by decide)
